import Mathlib

/-!
Verification development for the dicomdir-nifti pipeline
(src/conversor.py and src/config.py), shallowly embedded in Lean.

The pipeline moves DICOM studies from a remote archive through local
staging, converts each series to NIfTI, and uploads the artifacts, with a
durable JSON checkpoint (the progress dictionary).  The embedding below
translates the checkpoint record, the discovery listing, the per-item
bodies of the download and conversion workers, the save_progress write
path, and the startup/exit logic into pure Lean functions.  External
side effects (rclone calls, SimpleITK conversion, nibabel loading,
filesystem probes) are represented by explicit outcome parameters, so
that each worker-loop body becomes a function from the prior checkpoint
state and the observed outcomes to the next checkpoint state and the
visible actions (transfer invoked, item enqueued, directory deleted, ...).
-/

namespace DicomdirNifti

/-- Checkpoint record: the JSON progress dictionary created by
load_progress in conversor.py, with its four list fields. -/
structure Progress where
  downloaded : List String
  converted : List String
  uploaded : List String
  uploaded_files : List String
deriving DecidableEq

/-- ys is xs with entries only appended at the end (append-only evolution
of one checkpoint list). -/
def extendsList (xs ys : List String) : Prop :=
  ∃ zs, ys = xs ++ zs

/-- q is p with every checkpoint list only extended, never shortened or
rewritten. -/
def progressExtends (p q : Progress) : Prop :=
  extendsList p.downloaded q.downloaded ∧
  extendsList p.converted q.converted ∧
  extendsList p.uploaded q.uploaded ∧
  extendsList p.uploaded_files q.uploaded_files

/-- Python str.strip(): drop whitespace from both ends. -/
def pyStrip (s : String) : String :=
  String.mk (((s.data.dropWhile Char.isWhitespace).reverse.dropWhile Char.isWhitespace).reverse)

/-- Python str.rstrip("/"): drop trailing slash characters. -/
def rstripSlash (s : String) : String :=
  String.mk ((s.data.reverse.dropWhile (fun c => c == '/')).reverse)

/-- Python str.upper(), at the character level. -/
def pyUpper (s : String) : String :=
  String.mk (s.data.map Char.toUpper)

/-- Python str.endswith(suf), at the character level. -/
def pyEndsWith (s suf : String) : Bool :=
  suf.data.isSuffixOf s.data

/-- Outcome of one subprocess call to rclone lsf inside
check_remote_file_exists: the call either raises an exception, or returns
an exit code together with its stripped stdout. -/
inductive ProbeResult where
  | raises : ProbeResult
  | returns (returncode : Int) (stdout : String) : ProbeResult
deriving DecidableEq

/-- conversor.py check_remote_file_exists: True when the subprocess ran,
returned exit code 0 and produced non-empty (stripped) output; False on a
non-zero exit code, empty output, or any exception.  The stdout field of
ProbeResult.returns holds the raw stdout; the .strip() of the source is
applied here via pyStrip. -/
def check_remote_file_exists : ProbeResult → Bool
  | .raises => false
  | .returns rc out => rc == 0 && pyStrip out != ""

/-!  Checkpoint persistence: save_progress of conversor.py writes the
record to PROGRESS_FILE + ".tmp" and then os.replace()s it over
PROGRESS_FILE; on any exception it falls back to one direct write to
PROGRESS_FILE, and if that also raises it logs and returns normally.  The
filesystem is modelled by the contents of the two paths; a file holds
either a whole serialized record or a truncated one (a write that raised
midway). -/

/-- Contents of one file of the checkpoint store. -/
inductive FileContent where
  | whole (record : Progress)
  | truncated
deriving DecidableEq

/-- The two checkpoint paths: PROGRESS_FILE (canonical) and
PROGRESS_FILE + ".tmp" (temp). -/
structure FS where
  canonical : Option FileContent
  temp : Option FileContent
deriving DecidableEq

/-- Which of the primitive writes inside save_progress raise. -/
structure WriteFailure where
  tempWriteFails : Bool
  replaceFails : Bool
  directWriteFails : Bool
deriving DecidableEq

/-- How one call to save_progress ended.  There is no constructor for a
propagated exception: every path of the source function is wrapped in a
handler, so the function always returns. -/
inductive SaveOutcome where
  | savedAtomic
  | savedFallback
  | failedLogged
deriving DecidableEq

/-- The fallback branch of save_progress: one direct (non-atomic)
json.dump to the canonical path; if it raises midway the canonical file is
left truncated and the error is logged. -/
def save_fallback (fs : FS) (p : Progress) (f : WriteFailure) : FS × SaveOutcome :=
  if f.directWriteFails then
    ({ canonical := some .truncated, temp := fs.temp }, .failedLogged)
  else
    ({ canonical := some (.whole p), temp := fs.temp }, .savedFallback)

/-- conversor.py save_progress: write the record to the temp file, then
os.replace (or os.rename) it over the canonical file; on an exception in
either step, retry once with the direct fallback write. -/
def save_progress (fs : FS) (p : Progress) (f : WriteFailure) : FS × SaveOutcome :=
  if f.tempWriteFails then
    save_fallback { canonical := fs.canonical, temp := some .truncated } p f
  else
    if f.replaceFails then
      save_fallback { canonical := fs.canonical, temp := some (.whole p) } p f
    else
      ({ canonical := some (.whole p), temp := none }, .savedAtomic)

/-- The sequence of filesystem states visible during one save_progress
call (after each primitive operation): this is what a crash or a
concurrent reader can observe. -/
def save_progress_states (fs : FS) (p : Progress) (f : WriteFailure) : List FS :=
  if f.tempWriteFails then
    let fs1 : FS := { canonical := fs.canonical, temp := some .truncated }
    [fs, fs1, (save_fallback fs1 p f).1]
  else
    let fs1 : FS := { canonical := fs.canonical, temp := some (.whole p) }
    if f.replaceFails then [fs, fs1, (save_fallback fs1 p f).1]
    else [fs, fs1, { canonical := some (.whole p), temp := none }]

/-!  Remote discovery.  config.py list_dicomdirs filters the rclone lsf
output to lines ending (case-insensitively) in DICOMDIR; conversor.py
list_dicomdirs instead runs rclone lsf --dirs-only --recursive and keeps
every non-empty, not-yet-seen directory entry, without any name filter. -/

/-- The filtering loop of config.py list_dicomdirs: keep each stripped
line whose uppercase form ends with DICOMDIR, in order. -/
def keepManifestLines : List String → List String
  | [] => []
  | line :: rest =>
    let p := pyStrip line
    if pyEndsWith (pyUpper p) "DICOMDIR" then p :: keepManifestLines rest
    else keepManifestLines rest

/-- config.py list_dicomdirs: return the cached progress listed entries
when non-empty, otherwise filter the listing lines. -/
def config_list_dicomdirs (listed : List String) (lines : List String) : List String :=
  if listed ≠ [] then listed else keepManifestLines lines

/-- The enumeration loop of conversor.py list_dicomdirs: strip each line,
drop trailing slashes, and keep every non-empty entry not already seen.
No DICOMDIR-name check is applied. -/
def collectDirs : List String → List String → List String
  | _, [] => []
  | seen, line :: rest =>
    let d := rstripSlash (pyStrip line)
    if d ≠ "" ∧ d ∉ seen then d :: collectDirs (d :: seen) rest
    else collectDirs seen rest

/-- conversor.py list_dicomdirs on a successful listing: the cached
entries followed by the newly collected directory entries (all_dirs =
cached_dirs + dicomdirs). -/
def list_dicomdirs (cached : List String) (lines : List String) : List String :=
  cached ++ collectDirs cached lines

/-- config.py run(): exam_id = exam_remote_dir.replace("/", "_"),
embedded at the character level (the pattern and replacement are single
characters). -/
def derive_exam_id (s : String) : String :=
  String.mk (s.data.map (fun c => if c = '/' then '_' else c))

/-!  Series assembly.  parse_dicomdir of conversor.py iterates the
DICOMDIR FileSet, skips records that are not IMAGE, skips modalities
other than CT and MR, and appends each remaining instance path to the
list of its SeriesInstanceUID, in encounter order.  The metadata read
stops before pixels; the instance also carries the frame dimensions and
the through-plane position, which parse_dicomdir does not consult. -/

/-- One raw instance record of the DICOMDIR FileSet, with the metadata
fields relevant to the claims.  The path is identified by its source
index in the enumeration. -/
structure DicomInstance where
  directoryRecordType : String
  modality : String
  seriesInstanceUID : String
  rows : Nat
  columns : Nat
  imagePositionZ : Int
  path : Nat
deriving DecidableEq

/-- defaultdict(list): append a path under its series key, creating the
key at the end on first sight (Python dicts preserve insertion order). -/
def addToSeries : List (String × List Nat) → String → Nat → List (String × List Nat)
  | [], uid, p => [(uid, [p])]
  | (u, ps) :: rest, uid, p =>
    if u = uid then (u, ps ++ [p]) :: rest
    else (u, ps) :: addToSeries rest uid p

/-- The loop body of parse_dicomdir for one FileSet record. -/
def parseStep (acc : List (String × List Nat)) (inst : DicomInstance) : List (String × List Nat) :=
  if inst.directoryRecordType ≠ "IMAGE" then acc
  else if inst.modality ≠ "CT" ∧ inst.modality ≠ "MR" then acc
  else addToSeries acc inst.seriesInstanceUID inst.path

/-- conversor.py parse_dicomdir: group IMAGE records of modality CT or MR
by SeriesInstanceUID, keeping each series' paths in encounter order. -/
def parse_dicomdir (insts : List DicomInstance) : List (String × List Nat) :=
  insts.foldl parseStep []

/-- conversion_worker valid-series filter: keep the series whose file
list has at least MIN_SLICES entries. -/
def valid_series (minSlices : Nat) (series : List (String × List Nat)) : List (String × List Nat) :=
  series.filter (fun g => minSlices ≤ g.2.length)

/-- Overwrite the frame dimensions of an instance (used to state that
parse_dicomdir and valid_series never consult them). -/
def setDims (r c : Nat) (i : DicomInstance) : DicomInstance :=
  { i with rows := r, columns := c }

/-- Overwrite the through-plane position of an instance (used to state
that parse_dicomdir never consults it). -/
def setPosition (f : Int → Int) (i : DicomInstance) : DicomInstance :=
  { i with imagePositionZ := f i.imagePositionZ }

/-- Stable ascending insertion by the through-plane coordinate: an
element is inserted after every element less than or equal to it. -/
def insertByZ (x : DicomInstance) : List DicomInstance → List DicomInstance
  | [] => [x]
  | y :: ys =>
    if y.imagePositionZ ≤ x.imagePositionZ then y :: insertByZ x ys
    else x :: y :: ys

/-- Modelled from the spec (Series Assembler step 5): sort the retained
instances of a series by the through-plane spatial coordinate, ascending,
stably.  The source contains no such sort; this definition exists to
state what the spec requires, for comparison with parse_dicomdir. -/
def sortBySpatialSpec : List DicomInstance → List DicomInstance
  | [] => []
  | x :: xs => insertByZ x (sortBySpatialSpec xs)

/-!  Download worker.  One iteration of the loop body of download_worker
for one queue item, with the externally observed outcomes passed in. -/

/-- Environment observed by download_worker for one queue item. -/
structure DownloadEnv where
  /-- os.path.exists(local) and os.path.isdir(local) and os.listdir(local)
  non-empty, checked before the idempotency decision. -/
  localExistsNonEmpty : Bool
  /-- the rclone copy call returned without raising. -/
  rcloneOk : Bool
  /-- post-condition after the copy: the local directory exists and is
  non-empty. -/
  dirNonEmptyAfter : Bool
deriving DecidableEq

/-- Visible effect of one download_worker iteration. -/
structure DownloadResult where
  progressOut : Progress
  transferInvoked : Bool
  enqueuedToConvert : Bool
deriving DecidableEq

/-- Append an item to the downloaded list under the not-in guard of
download_worker. -/
def addDownloaded (p : Progress) (item : String) : Progress :=
  if item ∈ p.downloaded then p
  else { p with downloaded := p.downloaded ++ [item] }

/-- One iteration of conversor.py download_worker: skip the transfer when
the item is already recorded downloaded and the local staging directory
is present and non-empty; otherwise run rclone copy, and record the item
as downloaded only when the copy returned successfully and the directory
is non-empty afterwards. -/
def download_step (p : Progress) (item : String) (env : DownloadEnv) : DownloadResult :=
  if item ∈ p.downloaded ∧ env.localExistsNonEmpty = true then
    { progressOut := p, transferInvoked := false, enqueuedToConvert := true }
  else if env.rcloneOk then
    if env.dirNonEmptyAfter then
      { progressOut := addDownloaded p item, transferInvoked := true, enqueuedToConvert := true }
    else
      { progressOut := p, transferInvoked := true, enqueuedToConvert := false }
  else
    { progressOut := p, transferInvoked := true, enqueuedToConvert := false }

/-!  Conversion worker.  One iteration of conversion_worker processes one
DICOMDIR item: it parses the DICOMDIR, filters valid series, and for each
valid series either skips it (already recorded uploaded, or already
present at the remote destination), or converts, loads metadata and
uploads it.  A conversion or upload failure sets conversion_successful to
False and breaks; a metadata-load exception escapes to the outer per-item
handler.  The directory is removed and the item appended to converted
only when every valid series was processed. -/

/-- Per-series environment for conversion_worker: the artifact filename
(item_uid.nii.gz), the remote existence probe, and the outcomes of the
conversion, metadata load and upload calls. -/
structure SeriesSpec where
  filename : String
  probe : ProbeResult
  /-- os.path.exists(out): the artifact already exists locally. -/
  localExists : Bool
  /-- convert_series(files, out) returned without raising. -/
  convertOk : Bool
  /-- nib.load(out) and metadata extraction returned without raising. -/
  metaLoadOk : Bool
  /-- the rclone copy of the artifact returned without raising. -/
  uploadOk : Bool
deriving DecidableEq

/-- How processing one series ended. -/
inductive SeriesOutcome where
  | skippedAlreadyUploaded
  | skippedRemoteExists
  | convertFailed
  | raisedMeta
  | uploadFailed
  | uploadedOk
deriving DecidableEq

/-- Append a filename to uploaded_files under the not-in guard of
conversion_worker. -/
def addUploadedFile (p : Progress) (f : String) : Progress :=
  if f ∈ p.uploaded_files then p
  else { p with uploaded_files := p.uploaded_files ++ [f] }

/-- One series of one conversion_worker iteration. -/
def processSeries (p : Progress) (s : SeriesSpec) : Progress × SeriesOutcome :=
  if s.filename ∈ p.uploaded_files then (p, .skippedAlreadyUploaded)
  else if check_remote_file_exists s.probe then
    (addUploadedFile p s.filename, .skippedRemoteExists)
  else if !s.localExists && !s.convertOk then (p, .convertFailed)
  else if !s.metaLoadOk then (p, .raisedMeta)
  else if !s.uploadOk then (p, .uploadFailed)
  else (addUploadedFile p s.filename, .uploadedOk)

/-- Whether a series outcome increments series_processed and lets the
loop continue (the source breaks on the two failures and raises on the
metadata-load exception). -/
def outcomeCompletes : SeriesOutcome → Bool
  | .skippedAlreadyUploaded => true
  | .skippedRemoteExists => true
  | .uploadedOk => true
  | _ => false

/-- How the whole series loop of one item ended: completed with a count
of processed series (conversion_successful still True), broke with
conversion_successful False, or raised to the outer handler. -/
inductive UnitOutcome where
  | completed (processed : Nat)
  | failed
  | raised
deriving DecidableEq

/-- Increment the processed counter on the completed outcome. -/
def bump : Progress × UnitOutcome → Progress × UnitOutcome
  | (p, .completed n) => (p, .completed (n + 1))
  | r => r

/-- The series loop of conversion_worker over the valid series of one
item. -/
def processUnit : Progress → List SeriesSpec → Progress × UnitOutcome
  | p, [] => (p, .completed 0)
  | p, s :: rest =>
    let pr := processSeries p s
    if outcomeCompletes pr.2 then bump (processUnit pr.1 rest)
    else if pr.2 = .raisedMeta then (pr.1, .raised)
    else (pr.1, .failed)

/-- A series completes (is counted in series_processed) in the state p
exactly when it is already recorded uploaded, or the remote probe
reports the artifact present, or conversion (unless the artifact already
exists locally), metadata load and upload all succeed. -/
def seriesCompletes (p : Progress) (s : SeriesSpec) : Bool :=
  decide (s.filename ∈ p.uploaded_files) || check_remote_file_exists s.probe ||
    ((s.localExists || s.convertOk) && s.metaLoadOk && s.uploadOk)

/-- Every series of the loop completes, threading the evolving
checkpoint state. -/
def unitAllCompleted : Progress → List SeriesSpec → Bool
  | _, [] => true
  | p, s :: rest => seriesCompletes p s && unitAllCompleted (processSeries p s).1 rest

/-- The convert_series call is reached for a series exactly when it is
not skipped (not recorded uploaded and the remote probe negative) and no
local artifact exists. -/
def convertInvoked (p : Progress) (s : SeriesSpec) : Bool :=
  !(decide (s.filename ∈ p.uploaded_files)) && !(check_remote_file_exists s.probe) &&
    !s.localExists

/-- The filenames for which convert_series is invoked during the series
loop of one item. -/
def unitConvertInvocations : Progress → List SeriesSpec → List String
  | _, [] => []
  | p, s :: rest =>
    let inv := if convertInvoked p s then [s.filename] else []
    if outcomeCompletes (processSeries p s).2 then
      inv ++ unitConvertInvocations (processSeries p s).1 rest
    else inv

/-- Append an item to the converted list under the not-in guard of
conversion_worker. -/
def addConverted (p : Progress) (item : String) : Progress :=
  if item ∈ p.converted then p
  else { p with converted := p.converted ++ [item] }

/-- Visible effect of one conversion_worker iteration. -/
structure UnitResult where
  progressOut : Progress
  convertedAppended : Bool
  dirDeleteAttempted : Bool
deriving DecidableEq

/-- One iteration of conversion_worker for one queue item: skip items
already recorded converted; skip items whose staging directory is gone;
otherwise run the series loop, and only when it completed with every
valid series processed, attempt shutil.rmtree on the staging directory
and append the item to converted. -/
def conversion_step (p : Progress) (item : String) (dirExists : Bool)
    (series : List SeriesSpec) : UnitResult :=
  if item ∈ p.converted then
    { progressOut := p, convertedAppended := false, dirDeleteAttempted := false }
  else if !dirExists then
    { progressOut := p, convertedAppended := false, dirDeleteAttempted := false }
  else
    match processUnit p series with
    | (p1, .completed n) =>
      if n = series.length then
        { progressOut := addConverted p1 item, convertedAppended := true,
          dirDeleteAttempted := true }
      else
        { progressOut := p1, convertedAppended := false, dirDeleteAttempted := false }
    | (p1, .failed) =>
      { progressOut := p1, convertedAppended := false, dirDeleteAttempted := false }
    | (p1, .raised) =>
      { progressOut := p1, convertedAppended := false, dirDeleteAttempted := false }

/-!  Startup logic of run() in conversor.py. -/

/-- The startup recovery pass of run() for one local NIfTI file found in
LOCAL_NIFTI: if it is not yet recorded uploaded, probe the remote; when
present, record it; when absent, upload it and record it on success. -/
def recovery_step (p : Progress) (filename : String) (probe : ProbeResult)
    (rcloneOk : Bool) : Progress :=
  if filename ∈ p.uploaded_files then p
  else if check_remote_file_exists probe then
    { p with uploaded_files := p.uploaded_files ++ [filename] }
  else if rcloneOk then
    { p with uploaded_files := p.uploaded_files ++ [filename] }
  else p

/-- Where the startup classification of run() routes a discovered
DICOMDIR. -/
inductive Destination where
  | toDownloadQ
  | toConvertQ
  | completedQ
deriving DecidableEq

/-- The startup classification of run(): converted items are complete;
downloaded items with the local staging directory present go to the
conversion queue; downloaded items whose directory is missing are
re-queued for download (the checkpoint record itself is not modified);
everything else goes to the download queue. -/
def classify (p : Progress) (localDirPresent : Bool) (d : String) : Destination :=
  if d ∈ p.converted then .completedQ
  else if d ∈ p.downloaded then
    (if localDirPresent then .toConvertQ else .toDownloadQ)
  else .toDownloadQ

/-- The thread-safe snapshot taken by the interrupt handler before the
final flush: a field-by-field copy of the progress record. -/
def snapshot (p : Progress) : Progress :=
  { downloaded := p.downloaded, converted := p.converted,
    uploaded := p.uploaded, uploaded_files := p.uploaded_files }

/-- The startup write test of run(): it calls save_progress inside a
try/except whose except branch logs ERRO CRITICO and returns.  Because
save_progress (embedded above) wraps every path in its own handlers and
always returns normally, the except branch is unreachable and run()
always proceeds to further work; the Bool component records that the run
continues. -/
def run_startup (fs : FS) (p : Progress) (f : WriteFailure) : FS × Bool :=
  ((save_progress fs p f).1, true)

/-- What the interrupt handler does, as a function of the incremented
Ctrl+C count and the re-entry flag. -/
inductive SignalAction where
  | forcedKill
  | warnOnly
  | flushAndExitZero
deriving DecidableEq

/-- conversor.py signal_handler: more than two interrupts force
os._exit(1); a re-entered handler only warns; otherwise terminate the
active rclone processes, save a snapshot of the progress record, and
os._exit(0). -/
def signal_handler (count : Nat) (flagSet : Bool) : SignalAction :=
  if count > 2 then .forcedKill
  else if flagSet then .warnOnly
  else .flushAndExitZero

/-- Exit code produced by a handler action (none when the handler
returns without exiting). -/
def exit_code_of_action : SignalAction → Option Nat
  | .forcedKill => some 1
  | .warnOnly => none
  | .flushAndExitZero => some 0

/-- Exit code of a run that completes normally: the script main returns,
so the interpreter exits 0. -/
def normal_exit_code : Nat := 0

/-!  Concrete inputs used by counterexamples and witnesses. -/

/-- The empty progress record. -/
def p0 : Progress :=
  { downloaded := [], converted := [], uploaded := [], uploaded_files := [] }

/-- An empty checkpoint filesystem. -/
def fs0 : FS := { canonical := none, temp := none }

/-- A progress record with one downloaded exam and one recorded uploaded
artifact. -/
def pA : Progress :=
  { downloaded := ["exame1"], converted := [], uploaded := [],
    uploaded_files := ["exame1_S1.nii.gz"] }

/-- A series whose artifact is already recorded uploaded in pA. -/
def sA : SeriesSpec :=
  { filename := "exame1_S1.nii.gz", probe := .raises, localExists := false,
    convertOk := true, metaLoadOk := true, uploadOk := true }

/-- A series that converts and uploads successfully. -/
def sB : SeriesSpec :=
  { filename := "exame1_S2.nii.gz", probe := .returns 1 "", localExists := false,
    convertOk := true, metaLoadOk := true, uploadOk := true }

/-- A download environment: nothing local, transfer succeeds, directory
non-empty afterwards. -/
def envA : DownloadEnv :=
  { localExistsNonEmpty := false, rcloneOk := true, dirNonEmptyAfter := true }

/-- Three CT IMAGE instances of one series whose through-plane
coordinates arrive in the order [3, 1, 2] at source indices [0, 1, 2]. -/
def c1Input : List DicomInstance :=
  [ { directoryRecordType := "IMAGE", modality := "CT", seriesInstanceUID := "S",
      rows := 512, columns := 512, imagePositionZ := 3, path := 0 },
    { directoryRecordType := "IMAGE", modality := "CT", seriesInstanceUID := "S",
      rows := 512, columns := 512, imagePositionZ := 1, path := 1 },
    { directoryRecordType := "IMAGE", modality := "CT", seriesInstanceUID := "S",
      rows := 512, columns := 512, imagePositionZ := 2, path := 2 } ]

/-- Ten CT IMAGE instances of one series: eight of shape 512x512 at
source indices 0..7 and two of shape 256x256 at indices 8 and 9. -/
def c2Input : List DicomInstance :=
  (List.range 10).map (fun i =>
    { directoryRecordType := "IMAGE", modality := "CT", seriesInstanceUID := "S",
      rows := if i < 8 then 512 else 256, columns := if i < 8 then 512 else 256,
      imagePositionZ := Int.ofNat i, path := i })

end DicomdirNifti

namespace DicomdirNifti

/-!  Helper lemmas shared by the claim theorems. -/

theorem extendsList_refl (xs : List String) : extendsList xs xs :=
  ⟨[], by simp⟩

theorem extendsList_app (xs ys : List String) : extendsList xs (xs ++ ys) :=
  ⟨ys, rfl⟩

theorem extendsList_trans {xs ys zs : List String}
    (h1 : extendsList xs ys) (h2 : extendsList ys zs) : extendsList xs zs := by
  obtain ⟨a, rfl⟩ := h1
  obtain ⟨b, rfl⟩ := h2
  exact ⟨a ++ b, by simp⟩

theorem extendsList_mem {xs ys : List String} {a : String}
    (h : extendsList xs ys) (ha : a ∈ xs) : a ∈ ys := by
  obtain ⟨zs, rfl⟩ := h
  exact List.mem_append_left _ ha

theorem progressExtends_refl (p : Progress) : progressExtends p p :=
  ⟨extendsList_refl _, extendsList_refl _, extendsList_refl _, extendsList_refl _⟩

theorem progressExtends_trans {p q r : Progress}
    (h1 : progressExtends p q) (h2 : progressExtends q r) : progressExtends p r :=
  ⟨extendsList_trans h1.1 h2.1, extendsList_trans h1.2.1 h2.2.1,
   extendsList_trans h1.2.2.1 h2.2.2.1, extendsList_trans h1.2.2.2 h2.2.2.2⟩

theorem addDownloaded_extends (p : Progress) (item : String) :
    progressExtends p (addDownloaded p item) := by
  unfold addDownloaded
  split
  · exact progressExtends_refl p
  · exact ⟨extendsList_app _ _, extendsList_refl _, extendsList_refl _, extendsList_refl _⟩

theorem addUploadedFile_extends (p : Progress) (f : String) :
    progressExtends p (addUploadedFile p f) := by
  unfold addUploadedFile
  split
  · exact progressExtends_refl p
  · exact ⟨extendsList_refl _, extendsList_refl _, extendsList_refl _, extendsList_app _ _⟩

theorem addConverted_extends (p : Progress) (item : String) :
    progressExtends p (addConverted p item) := by
  unfold addConverted
  split
  · exact progressExtends_refl p
  · exact ⟨extendsList_refl _, extendsList_app _ _, extendsList_refl _, extendsList_refl _⟩

theorem processSeries_extends (p : Progress) (s : SeriesSpec) :
    progressExtends p (processSeries p s).1 := by
  unfold processSeries
  repeat' split
  all_goals first
    | exact progressExtends_refl p
    | exact addUploadedFile_extends p s.filename

theorem bump_fst (r : Progress × UnitOutcome) : (bump r).1 = r.1 := by
  rcases r with ⟨p, oc⟩
  cases oc <;> rfl

theorem processUnit_extends (series : List SeriesSpec) :
    ∀ p : Progress, progressExtends p (processUnit p series).1 := by
  induction series with
  | nil => intro p; exact progressExtends_refl p
  | cons s rest ih =>
    intro p
    simp only [processUnit]
    split
    · rw [bump_fst]
      exact progressExtends_trans (processSeries_extends p s) (ih (processSeries p s).1)
    · split
      · exact processSeries_extends p s
      · exact processSeries_extends p s

theorem download_step_extends (p : Progress) (item : String) (env : DownloadEnv) :
    progressExtends p (download_step p item env).progressOut := by
  unfold download_step
  repeat' split
  all_goals first
    | exact progressExtends_refl p
    | exact addDownloaded_extends p item

theorem conversion_step_extends (p : Progress) (item : String) (dirExists : Bool)
    (series : List SeriesSpec) :
    progressExtends p (conversion_step p item dirExists series).progressOut := by
  unfold conversion_step
  split
  · exact progressExtends_refl p
  · split
    · exact progressExtends_refl p
    · rcases hru : processUnit p series with ⟨p1, oc⟩
      have hext : progressExtends p p1 := by
        have := processUnit_extends series p
        rw [hru] at this
        exact this
      cases oc with
      | completed n =>
        simp only
        split
        · exact progressExtends_trans hext (addConverted_extends p1 item)
        · exact hext
      | failed => exact hext
      | raised => exact hext

theorem recovery_step_extends (p : Progress) (fn : String) (probe : ProbeResult)
    (rcloneOk : Bool) : progressExtends p (recovery_step p fn probe rcloneOk) := by
  unfold recovery_step
  repeat' split
  all_goals first
    | exact progressExtends_refl p
    | exact ⟨extendsList_refl _, extendsList_refl _, extendsList_refl _, extendsList_app _ _⟩

/-- C4: save_progress first writes the record to a temporary file and then
atomically replaces the canonical checkpoint file, so no intermediate state
of the write (as long as the non-atomic fallback write itself does not
fail) shows the canonical file as anything but the old record or the
complete new record; the atomic path failing triggers exactly one direct
fallback write, and when that also fails the outcome is a logged failure
with the call still returning normally. -/
theorem C4_save_progress_atomic_with_fallback (fs : FS) (p : Progress) (f : WriteFailure) :
    ((save_progress fs p f).2 = SaveOutcome.savedAtomic ↔
      f.tempWriteFails = false ∧ f.replaceFails = false) ∧
    ((save_progress fs p f).2 = SaveOutcome.savedAtomic ∨
        (save_progress fs p f).2 = SaveOutcome.savedFallback →
      (save_progress fs p f).1.canonical = some (FileContent.whole p)) ∧
    ((save_progress fs p f).2 = SaveOutcome.failedLogged ↔
      (f.tempWriteFails = true ∨ f.replaceFails = true) ∧ f.directWriteFails = true) ∧
    (f.directWriteFails = false →
      ∀ st ∈ save_progress_states fs p f,
        st.canonical = fs.canonical ∨ st.canonical = some (FileContent.whole p)) := by
  obtain ⟨t, r, d⟩ := f
  cases t <;> cases r <;> cases d <;>
    simp [save_progress, save_fallback, save_progress_states]

/-- C4 witness: on an all-successful write, the theorem instantiated at a
concrete filesystem and record. -/
theorem C4_witness :
    ((save_progress fs0 p0 ⟨false, false, false⟩).2 = SaveOutcome.savedAtomic ∨
        (save_progress fs0 p0 ⟨false, false, false⟩).2 = SaveOutcome.savedFallback) ∧
    (save_progress fs0 p0 ⟨false, false, false⟩).1.canonical = some (FileContent.whole p0) ∧
    ∀ st ∈ save_progress_states fs0 p0 ⟨false, false, false⟩,
      st.canonical = fs0.canonical ∨ st.canonical = some (FileContent.whole p0) :=
  ⟨Or.inl (by decide),
   (C4_save_progress_atomic_with_fallback fs0 p0 ⟨false, false, false⟩).2.1 (Or.inl (by decide)),
   (C4_save_progress_atomic_with_fallback fs0 p0 ⟨false, false, false⟩).2.2.2 (by decide)⟩

/-- C5: one download_worker iteration skips the external transfer exactly
when the item is already recorded downloaded and its local staging
directory exists and is non-empty; whenever the downloaded list changes,
the rclone copy succeeded and the post-condition (directory non-empty)
held, and the item was appended; and a fresh item with a successful
transfer and post-condition is appended. -/
theorem C5_fetch_idempotency (p : Progress) (item : String) (env : DownloadEnv) :
    ((download_step p item env).transferInvoked = false ↔
      item ∈ p.downloaded ∧ env.localExistsNonEmpty = true) ∧
    ((download_step p item env).progressOut.downloaded ≠ p.downloaded →
      env.rcloneOk = true ∧ env.dirNonEmptyAfter = true ∧
      (download_step p item env).progressOut.downloaded = p.downloaded ++ [item]) ∧
    (item ∉ p.downloaded → env.rcloneOk = true → env.dirNonEmptyAfter = true →
      (download_step p item env).progressOut.downloaded = p.downloaded ++ [item]) := by
  obtain ⟨le, ro, dna⟩ := env
  by_cases hm : item ∈ p.downloaded <;>
    cases le <;> cases ro <;> cases dna <;>
      simp [download_step, addDownloaded, hm]

/-- C5 witness: a fresh item with a successful transfer is recorded. -/
theorem C5_witness :
    (download_step p0 "exame1" envA).transferInvoked = true ∧
    (download_step p0 "exame1" envA).progressOut.downloaded = [] ++ ["exame1"] := by
  have h := C5_fetch_idempotency p0 "exame1" envA
  refine ⟨?_, h.2.2 (by decide) (by decide) (by decide)⟩
  cases hti : (download_step p0 "exame1" envA).transferInvoked
  · exact absurd (h.1.mp hti).1 (by decide)
  · rfl

/-- C7 counterexample: the id derivation exam_remote_dir.replace("/", "_")
is not collision-free: the two distinct remote study paths a/b and a_b
derive the same id. -/
theorem C7_counterexample_id_collision :
    derive_exam_id "a/b" = derive_exam_id "a_b" ∧ ("a/b" : String) ≠ "a_b" := by
  decide

/-- Injectivity of the slash-to-underscore character map on lists without
the underscore character. -/
theorem mapSlashInj : ∀ (as bs : List Char), '_' ∉ as → '_' ∉ bs →
    as.map (fun c => if c = '/' then '_' else c) =
      bs.map (fun c => if c = '/' then '_' else c) → as = bs
  | [], [], _, _, _ => rfl
  | [], _ :: _, _, _, h => by simp at h
  | _ :: _, [], _, _, h => by simp at h
  | a :: as, b :: bs, hs, ht, h => by
    simp only [List.map_cons, List.cons.injEq] at h
    obtain ⟨h1, h2⟩ := h
    have has : '_' ∉ as := fun hh => hs (List.mem_cons_of_mem _ hh)
    have hbs : '_' ∉ bs := fun hh => ht (List.mem_cons_of_mem _ hh)
    have ha : a ≠ '_' := fun hh => hs (hh ▸ List.mem_cons_self _ _)
    have hb : b ≠ '_' := fun hh => ht (hh ▸ List.mem_cons_self _ _)
    have hab : a = b := by
      by_cases hA : a = '/' <;> by_cases hB : b = '/' <;> simp [hA, hB] at h1
      · rw [hA, hB]
      · exact absurd h1.symm hb
      · exact absurd h1 ha
      · exact h1
    rw [hab, mapSlashInj as bs has hbs h2]

/-- C7 amended: the derived id is filesystem-safe (it contains no path
separator, so it names a single local directory), but it is collision-free
only on remote paths that contain no underscore; distinct paths such as
a/b and a_b collide. -/
theorem C7_id_safe_and_conditionally_injective :
    (∀ s : String, '/' ∉ (derive_exam_id s).data) ∧
    (∀ s t : String, '_' ∉ s.data → '_' ∉ t.data →
      derive_exam_id s = derive_exam_id t → s = t) := by
  constructor
  · intro s h
    simp only [derive_exam_id, List.mem_map] at h
    obtain ⟨a, _, hfa⟩ := h
    by_cases h1 : a = '/'
    · rw [if_pos h1] at hfa
      exact absurd hfa (by decide)
    · rw [if_neg h1] at hfa
      exact h1 hfa
  · intro s t hs ht h
    have hd : (derive_exam_id s).data = (derive_exam_id t).data := congrArg String.data h
    cases s with
    | mk as =>
      cases t with
      | mk bs =>
        have hab : as = bs := mapSlashInj as bs hs ht hd
        rw [hab]

/-- C7 witness: underscore-free paths are distinguished. -/
theorem C7_witness :
    '/' ∉ (derive_exam_id "a/b").data ∧
    (derive_exam_id "a-b" = derive_exam_id "a-b" → ("a-b" : String) = "a-b") :=
  ⟨C7_id_safe_and_conditionally_injective.1 "a/b",
   C7_id_safe_and_conditionally_injective.2 "a-b" "a-b" (by decide) (by decide)⟩

/-- C8 counterexample: when every checkpoint write fails (temporary write,
atomic replace and direct fallback all raise), save_progress still returns
normally with a merely logged failure, and run() proceeds with further
work; the claimed non-zero exit with no further processing does not
happen. -/
theorem C8_counterexample_startup_failure_continues :
    (run_startup fs0 p0 ⟨true, true, true⟩).2 = true ∧
    (save_progress fs0 p0 ⟨true, true, true⟩).2 = SaveOutcome.failedLogged := by
  decide

/-- C8 amended: a startup checkpoint-write failure is swallowed inside
save_progress, so run() proceeds with processing regardless of the write
outcome and that path never produces a non-zero exit; normal completion
exits zero; an interrupt exits zero after the best-effort flush, and only
a third interrupt forces exit code 1. -/
theorem C8_exit_behavior :
    (∀ (fs : FS) (p : Progress) (f : WriteFailure), (run_startup fs p f).2 = true) ∧
    normal_exit_code = 0 ∧
    (∀ (n : Nat) (flag : Bool),
      exit_code_of_action (signal_handler n flag) = some 1 ↔ n > 2) ∧
    signal_handler 1 false = SignalAction.flushAndExitZero ∧
    exit_code_of_action SignalAction.flushAndExitZero = some 0 := by
  refine ⟨fun _ _ _ => rfl, rfl, ?_, rfl, rfl⟩
  intro n flag
  by_cases h : n > 2 <;> cases flag <;> simp [signal_handler, exit_code_of_action, h]

/-- C10: check_remote_file_exists is total and never propagates an error:
a raised listing yields False, a non-zero exit code yields False, and in
conversion_worker a failed probe for a series not yet recorded uploaded
leads to the convert-and-upload path (neither skip branch is taken) rather
than failing the unit. -/
theorem C10_remote_probe_failsafe :
    check_remote_file_exists ProbeResult.raises = false ∧
    (∀ (rc : Int) (out : String), rc ≠ 0 →
      check_remote_file_exists (ProbeResult.returns rc out) = false) ∧
    (∀ (p : Progress) (s : SeriesSpec), s.probe = ProbeResult.raises →
      s.filename ∉ p.uploaded_files →
      (processSeries p s).2 ≠ SeriesOutcome.skippedAlreadyUploaded ∧
      (processSeries p s).2 ≠ SeriesOutcome.skippedRemoteExists) := by
  refine ⟨rfl, ?_, ?_⟩
  · intro rc out h
    have hrc : (rc == 0) = false := beq_eq_false_iff_ne.mpr h
    simp [check_remote_file_exists, hrc]
  · intro p s hpr hmem
    unfold processSeries
    rw [hpr]
    simp only [check_remote_file_exists, if_neg hmem, Bool.false_eq_true, if_false]
    repeat' split
    all_goals simp

/-- C10 witness: a raising probe on a fresh series takes the conversion
path. -/
theorem C10_witness :
    check_remote_file_exists (ProbeResult.returns 1 "x") = false ∧
    (processSeries p0 sA).2 ≠ SeriesOutcome.skippedAlreadyUploaded ∧
    (processSeries p0 sA).2 ≠ SeriesOutcome.skippedRemoteExists :=
  ⟨C10_remote_probe_failsafe.2.1 1 "x" (by decide),
   C10_remote_probe_failsafe.2.2 p0 sA (by decide) (by decide)⟩

/-- parseStep only reads the record type, the modality, the series UID and
the path of an instance, so it is unchanged under any rewrite of the other
metadata fields. -/
theorem foldl_parseStep_map (g : DicomInstance → DicomInstance)
    (hg : ∀ (acc : List (String × List Nat)) (i : DicomInstance),
      parseStep acc (g i) = parseStep acc i) :
    ∀ (l : List DicomInstance) (acc : List (String × List Nat)),
      List.foldl parseStep acc (l.map g) = List.foldl parseStep acc l := by
  intro l
  induction l with
  | nil => intro acc; rfl
  | cons i rest ih =>
    intro acc
    rw [List.map_cons, List.foldl_cons, List.foldl_cons, hg, ih]

theorem parseStep_setDims (r c : Nat) (acc : List (String × List Nat))
    (i : DicomInstance) : parseStep acc (setDims r c i) = parseStep acc i := rfl

theorem parseStep_setPosition (f : Int → Int) (acc : List (String × List Nat))
    (i : DicomInstance) : parseStep acc (setPosition f i) = parseStep acc i := rfl

/-- C1: the series lists that parse_dicomdir hands to convert_series keep
the DICOMDIR encounter order and are not sorted by the through-plane
spatial coordinate: on the failing input with coordinates [3, 1, 2] the
code produces source-index order [0, 1, 2] while the spec-required stable
ascending sort produces [1, 2, 0]; moreover parse_dicomdir never consults
the spatial coordinate at all, so no permutation of its inputs is ever
reordered by coordinate. -/
theorem C1_no_spatial_sort :
    parse_dicomdir c1Input = [("S", [0, 1, 2])] ∧
    (sortBySpatialSpec c1Input).map DicomInstance.path = [1, 2, 0] ∧
    ([0, 1, 2] : List Nat) ≠ [1, 2, 0] ∧
    ∀ (insts : List DicomInstance) (f : Int → Int),
      parse_dicomdir (insts.map (setPosition f)) = parse_dicomdir insts := by
  refine ⟨by decide, by decide, by decide, ?_⟩
  intro insts f
  unfold parse_dicomdir
  exact foldl_parseStep_map (setPosition f) (parseStep_setPosition f) insts []

/-- C2 counterexample: on a series group with eight 512x512 instances
(source indices 0..7) and two 256x256 instances (indices 8 and 9) and a
minimum of 8, the code retains all ten instances — including the two
256x256 outliers — not just the eight of the majority shape: there is no
dimension-consistency filter. -/
theorem C2_counterexample_no_dimension_filter :
    valid_series 8 (parse_dicomdir c2Input) =
      [("S", [0, 1, 2, 3, 4, 5, 6, 7, 8, 9])] ∧
    (c2Input.filter (fun i => i.rows == 256 && i.columns == 256)).map
      DicomInstance.path = [8, 9] := by
  decide

/-- C2 amended: the only filter applied to assembled series groups is the
minimum-instance-count test: a group is retained, with all of its files,
exactly when it has at least MIN_SLICES files; the (rows, columns)
metadata is never consulted, so rewriting the frame dimensions of every
instance leaves the assembly unchanged. -/
theorem C2_min_slices_filter_only :
    (∀ (m : Nat) (s : List (String × List Nat)) (g : String × List Nat),
      g ∈ valid_series m s ↔ g ∈ s ∧ m ≤ g.2.length) ∧
    (∀ (insts : List DicomInstance) (r c : Nat),
      parse_dicomdir (insts.map (setDims r c)) = parse_dicomdir insts) := by
  constructor
  · intro m s g
    simp [valid_series]
  · intro insts r c
    unfold parse_dicomdir
    exact foldl_parseStep_map (setDims r c) (parseStep_setDims r c) insts []

/-- Membership in the config.py discovery filter: exactly the stripped
lines whose uppercase form ends in DICOMDIR. -/
theorem mem_keepManifestLines (lines : List String) (d : String) :
    d ∈ keepManifestLines lines ↔
      ∃ line ∈ lines, d = pyStrip line ∧
        pyEndsWith (pyUpper d) "DICOMDIR" = true := by
  induction lines with
  | nil => simp [keepManifestLines]
  | cons line rest ih =>
    simp only [keepManifestLines]
    by_cases h : pyEndsWith (pyUpper (pyStrip line)) "DICOMDIR" = true
    · rw [if_pos h]
      constructor
      · intro hmem
        rcases List.mem_cons.mp hmem with rfl | h2
        · exact ⟨line, List.mem_cons_self _ _, rfl, h⟩
        · obtain ⟨l, hl, rfl, he⟩ := ih.mp h2
          exact ⟨l, List.mem_cons_of_mem _ hl, rfl, he⟩
      · rintro ⟨l, hl, rfl, he⟩
        rcases List.mem_cons.mp hl with rfl | hl2
        · exact List.mem_cons_self _ _
        · exact List.mem_cons_of_mem _ (ih.mpr ⟨l, hl2, rfl, he⟩)
    · rw [if_neg h, ih]
      constructor
      · rintro ⟨l, hl, rfl, he⟩
        exact ⟨l, List.mem_cons_of_mem _ hl, rfl, he⟩
      · rintro ⟨l, hl, rfl, he⟩
        rcases List.mem_cons.mp hl with rfl | hl2
        · exact absurd he h
        · exact ⟨l, hl2, rfl, he⟩

/-- Membership in the conversor.py discovery loop: every non-empty
normalized entry not already seen, regardless of its name. -/
theorem mem_collectDirs (lines : List String) : ∀ (seen : List String) (d : String),
    d ∈ collectDirs seen lines ↔
      d ∉ seen ∧ d ≠ "" ∧ ∃ line ∈ lines, d = rstripSlash (pyStrip line) := by
  induction lines with
  | nil => intro seen d; simp [collectDirs]
  | cons line rest ih =>
    intro seen d
    simp only [collectDirs]
    by_cases hcond : rstripSlash (pyStrip line) ≠ "" ∧ rstripSlash (pyStrip line) ∉ seen
    · rw [if_pos hcond]
      constructor
      · intro hmem
        rcases List.mem_cons.mp hmem with rfl | h2
        · exact ⟨hcond.2, hcond.1, line, List.mem_cons_self _ _, rfl⟩
        · obtain ⟨hns, hne, l, hl, rfl⟩ := (ih _ _).mp h2
          refine ⟨fun hd => hns (List.mem_cons_of_mem _ hd), hne,
            l, List.mem_cons_of_mem _ hl, rfl⟩
      · rintro ⟨hns, hne, l, hl, rfl⟩
        by_cases hde : rstripSlash (pyStrip l) = rstripSlash (pyStrip line)
        · rw [hde]
          exact List.mem_cons_self _ _
        · rcases List.mem_cons.mp hl with rfl | hl2
          · exact absurd rfl hde
          · refine List.mem_cons_of_mem _ ((ih _ _).mpr ⟨?_, hne, l, hl2, rfl⟩)
            intro hmem2
            rcases List.mem_cons.mp hmem2 with heq | hmem3
            · exact hde heq
            · exact hns hmem3
    · rw [if_neg hcond, ih]
      push_neg at hcond
      constructor
      · rintro ⟨hns, hne, l, hl, rfl⟩
        exact ⟨hns, hne, l, List.mem_cons_of_mem _ hl, rfl⟩
      · rintro ⟨hns, hne, l, hl, rfl⟩
        rcases List.mem_cons.mp hl with rfl | hl2
        · exact absurd (hcond hne) hns
        · exact ⟨hns, hne, l, hl2, rfl⟩

/-- C6 counterexample: conversor.py's list_dicomdirs applies no
manifest-name filter: a directory entry that does not end in DICOMDIR
appears in the returned work-unit sequence. -/
theorem C6_counterexample_no_manifest_filter :
    list_dicomdirs [] ["estudo1/serie1/"] = ["estudo1/serie1"] ∧
    pyEndsWith (pyUpper "estudo1/serie1") "DICOMDIR" = false := by
  decide

/-- C6 amended: only config.py's list_dicomdirs filters by the manifest
naming convention — its output consists of exactly the stripped listing
lines ending case-insensitively in DICOMDIR; conversor.py's list_dicomdirs
returns the cached entries plus every distinct non-empty directory entry
of the listing, with no name filter. -/
theorem C6_discovery_filter_characterization :
    (∀ (lines : List String) (d : String),
      d ∈ keepManifestLines lines ↔
        ∃ line ∈ lines, d = pyStrip line ∧
          pyEndsWith (pyUpper d) "DICOMDIR" = true) ∧
    (∀ (cached lines : List String) (d : String),
      d ∈ list_dicomdirs cached lines ↔
        d ∈ cached ∨ (d ≠ "" ∧ ∃ line ∈ lines, d = rstripSlash (pyStrip line))) := by
  constructor
  · exact mem_keepManifestLines
  · intro cached lines d
    simp only [list_dicomdirs, List.mem_append, mem_collectDirs]
    tauto

/-- C6 witness: a manifest line passes the config.py filter and a plain
directory entry passes conversor.py's loop. -/
theorem C6_witness :
    ("pac1/DICOMDIR" ∈ keepManifestLines ["pac1/DICOMDIR", "pac1/IM0001"]) ∧
    ("estudo2" ∈ list_dicomdirs ["estudo1"] ["estudo2/"]) :=
  ⟨(C6_discovery_filter_characterization.1 ["pac1/DICOMDIR", "pac1/IM0001"]
      "pac1/DICOMDIR").mpr
    ⟨"pac1/DICOMDIR", by decide, by decide, by decide⟩,
   (C6_discovery_filter_characterization.2 ["estudo1"] ["estudo2/"] "estudo2").mpr
    (Or.inr ⟨by decide, "estudo2/", by decide, by decide⟩)⟩

/-- The outcome of one series counts toward series_processed exactly when
seriesCompletes holds in the state at which the series is processed. -/
theorem processSeries_completes_eq (p : Progress) (s : SeriesSpec) :
    outcomeCompletes (processSeries p s).2 = seriesCompletes p s := by
  obtain ⟨fn, probe, le, co, ml, uo⟩ := s
  by_cases hm : fn ∈ p.uploaded_files <;>
    cases hc : check_remote_file_exists probe <;>
      cases le <;> cases co <;> cases ml <;> cases uo <;>
        simp [processSeries, seriesCompletes, outcomeCompletes, hm, hc]

/-- When the series loop ends with conversion_successful still True, the
processed count equals the number of valid series. -/
theorem processUnit_completed_length (series : List SeriesSpec) :
    ∀ (p : Progress) (n : Nat),
      (processUnit p series).2 = UnitOutcome.completed n → n = series.length := by
  induction series with
  | nil =>
    intro p n h
    simp only [processUnit, UnitOutcome.completed.injEq] at h
    rw [← h]
    rfl
  | cons s rest ih =>
    intro p n h
    simp only [processUnit] at h
    split at h
    · rcases hru : processUnit (processSeries p s).1 rest with ⟨p2, oc2⟩
      rw [hru] at h
      cases oc2 with
      | completed m =>
        have hm2 : (processUnit (processSeries p s).1 rest).2 = UnitOutcome.completed m := by
          rw [hru]
        have hml := ih _ m hm2
        simp only [bump, UnitOutcome.completed.injEq] at h
        simp [← h, hml]
      | failed => simp [bump] at h
      | raised => simp [bump] at h
    · split at h
      · simp at h
      · simp at h

/-- The series loop ends with conversion_successful True and all series
counted exactly when every valid series completes. -/
theorem processUnit_completed_iff (series : List SeriesSpec) : ∀ (p : Progress),
    ((processUnit p series).2 = UnitOutcome.completed series.length ↔
      unitAllCompleted p series = true) := by
  induction series with
  | nil => intro p; simp [processUnit, unitAllCompleted]
  | cons s rest ih =>
    intro p
    have hsc := processSeries_completes_eq p s
    simp only [processUnit, unitAllCompleted]
    by_cases hc : outcomeCompletes (processSeries p s).2 = true
    · rw [if_pos hc]
      rcases hru : processUnit (processSeries p s).1 rest with ⟨p2, oc2⟩
      cases oc2 with
      | completed m =>
        have hm : m = rest.length := processUnit_completed_length rest _ m (by rw [hru])
        subst hm
        have h2 : unitAllCompleted (processSeries p s).1 rest = true :=
          (ih _).mp (by rw [hru])
        rw [← hsc]
        simp [bump, hc, h2]
      | failed =>
        have h2 : unitAllCompleted (processSeries p s).1 rest = false := by
          cases hax : unitAllCompleted (processSeries p s).1 rest
          · rfl
          · have hcontra := (ih _).mpr hax
            rw [hru] at hcontra
            simp at hcontra
        simp [bump, h2]
      | raised =>
        have h2 : unitAllCompleted (processSeries p s).1 rest = false := by
          cases hax : unitAllCompleted (processSeries p s).1 rest
          · rfl
          · have hcontra := (ih _).mpr hax
            rw [hru] at hcontra
            simp at hcontra
        simp [bump, h2]
    · rw [if_neg hc]
      have hcf : outcomeCompletes (processSeries p s).2 = false := by
        cases hx : outcomeCompletes (processSeries p s).2
        · rfl
        · exact absurd hx hc
      have hscf : seriesCompletes p s = false := by rw [← hsc]; exact hcf
      rw [hscf]
      split <;> simp

/-- Membership in uploaded_files is preserved by processing one series. -/
theorem mem_uploadedFiles_mono (p : Progress) (s : SeriesSpec) {f : String}
    (h : f ∈ p.uploaded_files) : f ∈ (processSeries p s).1.uploaded_files :=
  extendsList_mem (processSeries_extends p s).2.2.2 h

/-- A filename already recorded in uploaded_files is never handed to
convert_series during the series loop. -/
theorem uploaded_not_invoked (series : List SeriesSpec) :
    ∀ (p : Progress) (f : String),
      f ∈ p.uploaded_files → f ∉ unitConvertInvocations p series := by
  induction series with
  | nil =>
    intro p f _
    simp [unitConvertInvocations]
  | cons s rest ih =>
    intro p f hf
    simp only [unitConvertInvocations]
    have hinv : f ∉ (if convertInvoked p s then [s.filename] else []) := by
      split
      · rename_i hci
        simp only [List.mem_singleton]
        intro heq
        rw [heq] at hf
        simp [convertInvoked, hf] at hci
      · simp
    split
    · intro hmem
      rcases List.mem_append.mp hmem with h1 | h2
      · exact hinv h1
      · exact ih _ f (mem_uploadedFiles_mono p s hf) h2
    · exact hinv

/-- C3: one conversion_worker iteration appends the item to the converted
checkpoint list exactly when it attempts to delete the staging directory,
and that happens exactly when the item was not already recorded converted,
its staging directory exists, and every valid series of the unit completed
end-to-end (already recorded uploaded, found at the remote destination, or
converted, loaded and uploaded successfully); a series whose artifact is
already recorded in uploaded_files is never re-converted. -/
theorem C3_unit_commit_policy (p : Progress) (item : String) (dirExists : Bool)
    (series : List SeriesSpec) :
    ((conversion_step p item dirExists series).convertedAppended =
      (conversion_step p item dirExists series).dirDeleteAttempted) ∧
    ((conversion_step p item dirExists series).convertedAppended = true ↔
      item ∉ p.converted ∧ dirExists = true ∧ unitAllCompleted p series = true) ∧
    (∀ s ∈ series, s.filename ∈ p.uploaded_files →
      s.filename ∉ unitConvertInvocations p series) := by
  refine ⟨?_, ?_, ?_⟩
  · by_cases h1 : item ∈ p.converted
    · simp [conversion_step, h1]
    · cases dirExists
      · simp [conversion_step, h1]
      · rcases hru : processUnit p series with ⟨p1, oc⟩
        cases oc <;> simp [conversion_step, h1, hru]
        split <;> rfl
  · by_cases h1 : item ∈ p.converted
    · simp [conversion_step, h1]
    · cases dirExists
      · simp [conversion_step, h1]
      · rcases hru : processUnit p series with ⟨p1, oc⟩
        cases oc with
        | completed n =>
          have hn : n = series.length := processUnit_completed_length series p n (by rw [hru])
          subst hn
          have hall : unitAllCompleted p series = true :=
            (processUnit_completed_iff series p).mp (by rw [hru])
          simp [conversion_step, h1, hru, hall]
        | failed =>
          have hall : unitAllCompleted p series = false := by
            cases hax : unitAllCompleted p series
            · rfl
            · have hcontra := (processUnit_completed_iff series p).mpr hax
              rw [hru] at hcontra
              simp at hcontra
          simp [conversion_step, h1, hru, hall]
        | raised =>
          have hall : unitAllCompleted p series = false := by
            cases hax : unitAllCompleted p series
            · rfl
            · have hcontra := (processUnit_completed_iff series p).mpr hax
              rw [hru] at hcontra
              simp at hcontra
          simp [conversion_step, h1, hru, hall]
  · intro s _ hmem
    exact uploaded_not_invoked series p s.filename hmem

/-- C3 witness: a unit whose first series is already recorded uploaded and
whose second converts and uploads successfully is committed, and the first
artifact is not re-converted. -/
theorem C3_witness :
    (conversion_step pA "exame1" true [sA, sB]).convertedAppended = true ∧
    "exame1_S1.nii.gz" ∉ unitConvertInvocations pA [sA, sB] :=
  ⟨((C3_unit_commit_policy pA "exame1" true [sA, sB]).2.1).mpr
      ⟨by decide, rfl, by decide⟩,
   (C3_unit_commit_policy pA "exame1" true [sA, sB]).2.2 sA (by decide) (by decide)⟩

/-- C9: every checkpoint mutation of the pipeline only appends: one
download_worker iteration, one series step and one whole conversion_worker
iteration, and one startup recovery step each produce a record extending
the previous one list-by-list; the interrupt-handler snapshot is an exact
copy; and the startup re-validation demotes a downloaded unit with a
missing staging directory by re-queuing it for download while the record
is passed through unchanged. -/
theorem C9_checkpoint_append_only (p : Progress) (item d fn : String)
    (env : DownloadEnv) (dirExists : Bool) (series : List SeriesSpec)
    (s : SeriesSpec) (probe : ProbeResult) (rcloneOk localDirPresent : Bool) :
    progressExtends p (download_step p item env).progressOut ∧
    progressExtends p (processSeries p s).1 ∧
    progressExtends p (conversion_step p item dirExists series).progressOut ∧
    progressExtends p (recovery_step p fn probe rcloneOk) ∧
    snapshot p = p ∧
    (d ∈ p.downloaded → d ∉ p.converted → localDirPresent = false →
      classify p localDirPresent d = Destination.toDownloadQ) := by
  refine ⟨download_step_extends p item env, processSeries_extends p s,
    conversion_step_extends p item dirExists series,
    recovery_step_extends p fn probe rcloneOk, rfl, ?_⟩
  intro hd hnc hl
  simp [classify, hd, hnc, hl]

/-- C9 witness: a concrete mutation extends the record, and a concrete
downloaded unit with a missing directory is re-queued. -/
theorem C9_witness :
    progressExtends pA (download_step pA "exame2" envA).progressOut ∧
    classify pA false "exame1" = Destination.toDownloadQ :=
  ⟨(C9_checkpoint_append_only pA "exame2" "exame1" "f.nii.gz" envA true []
      sB ProbeResult.raises true false).1,
   (C9_checkpoint_append_only pA "exame2" "exame1" "f.nii.gz" envA true []
      sB ProbeResult.raises true false).2.2.2.2.2 (by decide) (by decide) rfl⟩

